import Mathlib

/-!
Verification of the call-notification-agent headless utility.

The development shallowly embeds the three `headless.ts` variants of the
repository: JS string text is `List Char`, the JS string primitives used by the
source (`indexOf`, `substring`, `split` with a limit, hex `Buffer.from`) are
modelled faithfully including `-1` results and index clamping, the chat event
handlers and the `POST /agent` control flow are explicit functions on an
explicit server state, and the external collaborators (metadata store,
workspace join, AI generation, markdown renderer, mail transport) appear as
parameters or recorded effects.
-/

set_option maxRecDepth 16384

namespace CallAgent

/-- Hex digit value accepted by Node's hex decoder (0-9, a-f, A-F). -/
def hexDigitVal (c : Char) : Option Nat :=
  if '0' ≤ c ∧ c ≤ '9' then some (c.toNat - '0'.toNat)
  else if 'a' ≤ c ∧ c ≤ 'f' then some (c.toNat - 'a'.toNat + 10)
  else if 'A' ≤ c ∧ c ≤ 'F' then some (c.toNat - 'A'.toNat + 10)
  else none

/-- Node `Buffer.from(str, 'hex')`: two hex digits per byte, decoding stops at
the first invalid pair, and a trailing odd digit is dropped. -/
def hexDecode : List Char → List Nat
  | c1 :: c2 :: rest =>
    match hexDigitVal c1, hexDigitVal c2 with
    | some hi, some lo => (16 * hi + lo) :: hexDecode rest
    | _, _ => []
  | _ => []

/-- Test that the first list is an initial segment of the second: the match
test behind JS `indexOf` scanning and behind the source's sentinel guard. -/
def leadsWith : List Char → List Char → Bool
  | [], _ => true
  | _ :: _, [] => false
  | a :: as, b :: bs => a == b && leadsWith as bs

/-- Start index of the first occurrence of `sep` in `s`, scanning left to
right as JS `String.indexOf` does; `none` when `sep` does not occur. -/
def findOcc (sep s : List Char) : Option Nat :=
  match s with
  | [] => if sep = [] then some 0 else none
  | _ :: rest => if leadsWith sep s then some 0 else (findOcc sep rest).map (fun n => n + 1)

/-- Fuel-indexed full split on a separator (JS `String.split(sep)`). -/
def splitF (sep : List Char) : Nat → List Char → List (List Char)
  | 0, s => [s]
  | fuel + 1, s =>
    match findOcc sep s with
    | none => [s]
    | some i => s.take i :: splitF sep fuel (s.drop (i + sep.length))

/-- Fuel-indexed split with a result limit (JS `String.split(sep, limit)`),
which truncates the result array at `limit` pieces. -/
def splitLimitF (sep : List Char) : Nat → Nat → List Char → List (List Char)
  | _, 0, _ => []
  | 0, _ + 1, s => [s]
  | fuel + 1, limit + 1, s =>
    match findOcc sep s with
    | none => [s]
    | some i => s.take i :: splitLimitF sep fuel limit (s.drop (i + sep.length))

/-- Start offsets of the left-to-right non-overlapping occurrences of `sep`
in `s` — the positions that JS `split` and chained `indexOf` calls walk
through — fuel-indexed. -/
def occsF (sep : List Char) : Nat → List Char → List Nat
  | 0, _ => []
  | fuel + 1, s =>
    match findOcc sep s with
    | none => []
    | some i =>
      i :: (occsF sep fuel (s.drop (i + sep.length))).map (fun n => n + (i + sep.length))

/-- Full split with enough fuel for the whole input. -/
def splitJS (sep s : List Char) : List (List Char) := splitF sep (s.length + 1) s

/-- Limited split with enough fuel for the whole input. -/
def splitLimitJS (sep : List Char) (limit : Nat) (s : List Char) : List (List Char) :=
  splitLimitF sep (s.length + 1) limit s

/-- Occurrence start offsets with enough fuel for the whole input. -/
def occurrences (sep s : List Char) : List Nat := occsF sep (s.length + 1) s

/-- JS `String.prototype.substring(start, end)`: both arguments are clamped
into `[0, length]` and swapped when out of order. -/
def jsSubstring (s : List Char) (a b : Int) : List Char :=
  let n : Int := (s.length : Int)
  let a2 := min (max a 0) n
  let b2 := min (max b 0) n
  let lo := min a2 b2
  let hi := max a2 b2
  (s.take hi.toNat).drop lo.toNat

/-- JS `String.prototype.indexOf(sep, fromIndex)`, returning `-1` when `sep`
does not occur at or after `fromIndex`. -/
def jsIndexOfFrom (sep s : List Char) (fromIdx : Nat) : Int :=
  match findOcc sep (s.drop fromIdx) with
  | none => -1
  | some j => ((j + fromIdx : Nat) : Int)

/-- The level-2-heading marker the digest code splits on. -/
def sepHH : List Char := ['#', '#']

/-- Source: `const thirdHeaderPos = mdText.split("##", 3).join("##").length`. -/
def thirdHeaderPos (mdText : List Char) : Nat :=
  (List.intercalate sepHH (splitLimitJS sepHH 3 mdText)).length

/-- Source: `const cutText = mdText.substring(0, thirdHeaderPos)` — the digest
extraction window. -/
def cutText (mdText : List Char) : List Char := mdText.take (thirdHeaderPos mdText)

/-- The mail-template delimiter string. -/
def hrSep : List Char := ['<', 'h', 'r', '>']

/-- Source: `const hr1 = email.indexOf("<hr>") + 4; const hr2 =
email.indexOf("<hr>", hr1); email.substring(0, hr1) + html +
email.substring(hr2)`. The source performs no delimiter-presence check: a
missing occurrence makes `indexOf` yield `-1` and `substring` clamp. -/
def spliceEmail (template html : List Char) : List Char :=
  let hr1 : Int := jsIndexOfFrom hrSep template 0 + 4
  let hr2 : Int := jsIndexOfFrom hrSep template hr1.toNat
  jsSubstring template 0 hr1 ++ html ++ jsSubstring template hr2 ((template.length : Int))

/-- A file entry of a project, with the live document contents the external
sync service would hand back for it. -/
structure ProjFile where
  path : String
  contents : List Char
  deriving DecidableEq

/-- A project known to the workspace's document tree. -/
structure Project where
  name : String
  files : List ProjFile
  deriving DecidableEq

/-- Source loop of the digest variants: scan every project's file list and
overwrite `fileContents` with the contents of each file whose path is
`"/agenda.md"`; the result is the last match, `none` when no project has one
(in the source `fileContents` then stays `undefined`). -/
def findAgenda (projs : List Project) : Option (List Char) :=
  projs.foldl
    (fun acc p =>
      p.files.foldl (fun acc2 f => if f.path = "/agenda.md" then some f.contents else acc2) acc)
    none

/-- Outcome of one digest run. The source has no template-error path; its only
failure is the `fileContents.getText('text')` dereference of `undefined` when
no agenda file was found, a TypeError. -/
inductive DigestOutcome
  | typeErr
  | ran (emailBody : List Char)
  deriving DecidableEq

/-- Digest body shared by part_000 and part_001: locate `/agenda.md`, cut the
text before the third `##`, render it with the external `markdown` call
(parameter `render`), splice the fragment into the mail template and hand the
body to the mail transport. With no agenda file the source dereferences the
undefined `fileContents` and throws a TypeError before any of that. -/
def runDigestCore (render : List Char → List Char) (template : List Char)
    (projs : List Project) : DigestOutcome :=
  match findAgenda projs with
  | none => .typeErr
  | some doc => .ran (spliceEmail template (render (cutText doc)))

/-- A chat message as the channel delivers it (`uuid` is irrelevant to the
handlers and omitted). -/
structure ChatMessage where
  user : String
  ts : Nat
  message : List Char
  deriving DecidableEq

/-- The sentinel the agent prepends to its own replies. -/
def AGENT_ID : List Char := "AGENT: ".toList

/-- Externally visible actions of the AI-reply chat handler. -/
inductive AgentAction
  | generate (prompt : List Char)
  | publish (channel : String) (text : List Char)
  deriving DecidableEq

/-- headless.ts AI-reply chat handler: for a delivered message of the
subscribed channel, drop it when `message.message.substring(0, 7)` equals
`"AGENT: "`, otherwise call `ai.generate` once and publish the
sentinel-prefixed reply once. -/
def onChatAi (gen : List Char → List Char) (channelName msgChannelName : String)
    (msg : ChatMessage) : List AgentAction :=
  if msgChannelName = channelName then
    if msg.message.take 7 = AGENT_ID then []
    else [.generate msg.message, .publish channelName (AGENT_ID ++ gen msg.message)]
  else []

/-- part_001 digest chat handler: the source applies no sentinel guard here —
every message delivered on the subscribed channel triggers the digest run. -/
def onChatDigest001 (render : List Char → List Char) (template : List Char)
    (projs : List Project) (channelName msgChannelName : String)
    (msg : ChatMessage) : Option DigestOutcome :=
  if msgChannelName = channelName then some (runDigestCore render template projs) else none

/-- part_000 digest chat handler: same `substring(0, 7)` sentinel guard as the
AI variant, in front of the digest run. -/
def onChatDigest000 (render : List Char → List Char) (template : List Char)
    (projs : List Project) (channelName msgChannelName : String)
    (msg : ChatMessage) : Option DigestOutcome :=
  if msgChannelName = channelName then
    if msg.message.take 7 = AGENT_ID then none
    else some (runDigestCore render template projs)
  else none

/-- The `globalThis._activeAgent` slot value. -/
structure AgentHandle where
  wkspName : String
  channelName : String
  deriving DecidableEq

/-- A chat-event subscription created by `chat.events.on('chat', ...)`. The
source never detaches a listener, and nothing in it flips a cancellation
flag. -/
structure ChatSub where
  wkspName : String
  channelName : String
  cancelled : Bool
  deriving DecidableEq

/-- Process-wide observable state of the agent server: the singleton slot, the
installed chat subscriptions, the workspaces joined over the network, and the
log lines of the stop-previous-agent branch. -/
structure ServerState where
  activeAgent : Option AgentHandle
  subs : List ChatSub
  joins : List String
  stopLog : List String
  deriving DecidableEq

/-- State at process start: slot unset, nothing subscribed or joined. -/
def initState : ServerState := ⟨none, [], [], []⟩

/-- Body of a `POST /agent` request. -/
structure AgentRequest where
  wkspName : String
  psk : String
  channel : String
  deriving DecidableEq

/-- How the external collaborators behave for a given start request. -/
inductive StartOutcome
  | setupFail (msg : String)
  | listChannels
  | chanNotFound
  | ok
  deriving DecidableEq

/-- Environment of a run: whether a workspace already has local metadata
(`_o.stats.get`), and how setup/channel resolution turns out. -/
structure Env where
  hasMeta : String → Bool
  setup : AgentRequest → StartOutcome

/-- How one `startAgent` invocation ends. `running` is the
`await new Promise(() => \x7b\x7d)` tail that never resolves. -/
inductive StartResult
  | threw (msg : String)
  | exited (code : Nat)
  | running
  deriving DecidableEq

/-- Effects of one `startAgent` call: `setupWorkspace` issues `Workspace.join`
exactly when no local metadata exists; then, per the environment, setup fails,
the run ends in the list-channels or channel-not-found `process.exit`, or the
chat subscription is installed by `chat.events.on` — and never detached. -/
def startAgentModel (env : Env) (r : AgentRequest) (s : ServerState) :
    ServerState × StartResult :=
  let s1 := if env.hasMeta r.wkspName then s else { s with joins := s.joins ++ [r.wkspName] }
  match env.setup r with
  | .setupFail m => (s1, .threw m)
  | .listChannels => (s1, .exited 0)
  | .chanNotFound => (s1, .exited 1)
  | .ok => ({ s1 with subs := s1.subs ++ [⟨r.wkspName, r.channel, false⟩] }, .running)

/-- The `if (globalThis._activeAgent) { console.log('Stopping previous
agent...'); globalThis._activeAgent = null; }` branch: it reads the slot, logs
and nulls it — the `TODO` cleanup (listener detach) is absent from the
source. -/
def stopBranch (s : ServerState) : ServerState :=
  match s.activeAgent with
  | some h => { s with activeAgent := none, stopLog := s.stopLog ++ [h.wkspName] }
  | none => s

/-- HTTP-level outcome of one `POST /agent` request. -/
inductive HttpOutcome
  | ok200 (message : String)
  | err500 (error : String)
  | uncaughtThrow (msg : String)
  | hang
  | exitedProcess (code : Nat)
  deriving DecidableEq

/-- The PSK validation error message of the source. -/
def pskMsg : String := "PSK must be exactly 32 bytes (64 hex characters)"

/-- headless.ts `POST /agent` handler: hex-decode and length-check the PSK
before the `try` block, so a validation failure is thrown out of the handler
uncaught (no JSON response); then null the slot and `await startAgent(...)` —
a failure inside it is caught as `500 {ok:false, error}`, the list/not-found
paths call `process.exit`, and on success `startAgent` never resolves, so the
`res.json({ok:true, ...})` line is unreachable. -/
def handleAgentAwaited (env : Env) (r : AgentRequest) (s : ServerState) :
    ServerState × HttpOutcome :=
  if (hexDecode r.psk.toList).length ≠ 32 then (s, .uncaughtThrow pskMsg)
  else
    match (startAgentModel env r (stopBranch s)).2 with
    | .threw m => ((startAgentModel env r (stopBranch s)).1, .err500 m)
    | .exited c => ((startAgentModel env r (stopBranch s)).1, .exitedProcess c)
    | .running => ((startAgentModel env r (stopBranch s)).1, .hang)

/-- part_000/part_001 `POST /agent` handler: same pre-`try` PSK gate; then the
slot is nulled and `startAgent(...)` is called without `await`, so the handler
answers `200 {ok:true, message}` immediately and later failures inside
`startAgent` are caught by nobody. -/
def handleAgentFire (env : Env) (r : AgentRequest) (s : ServerState) :
    ServerState × HttpOutcome :=
  if (hexDecode r.psk.toList).length ≠ 32 then (s, .uncaughtThrow pskMsg)
  else
    ((startAgentModel env r (stopBranch s)).1,
      .ok200 ("Agent joined workspace " ++ r.wkspName ++ " on #" ++ r.channel))

/-- Outcome of the part_000 CLI `main` up to workspace setup. -/
inductive MainOutcome
  | fatalPskError
  | proceeded (joins : List String)
  deriving DecidableEq

/-- part_000 `main`: the PSK is hex-decoded and length-checked before services
are loaded or anything touches the network; only afterwards does the flow
connect and run `setupWorkspace`, which joins exactly when no local metadata
exists. -/
def mainFlow000 (hasMeta : Bool) (wkspName pskHex : String) : MainOutcome :=
  if (hexDecode pskHex.toList).length ≠ 32 then .fatalPskError
  else .proceeded (if hasMeta then [] else [wkspName])

/-- Locally stored workspace metadata (only the field the source touches). -/
structure WkspMeta where
  ignore : Bool
  deriving DecidableEq

/-- Result of the digest variants' `setupWorkspace`. -/
inductive SetupResult
  | typeErr
  | session (wkspName : String)
  deriving DecidableEq

/-- Side effects of one `setupWorkspace` call. -/
structure SetupEffects where
  joins : List String
  puts : List (String × WkspMeta)
  deriving DecidableEq

/-- part_000/part_001 `setupWorkspace`: read the metadata; when it is absent,
`Workspace.join`; then unconditionally execute `wkspMeta.ignore = true` — on
the null metadata of a first-ever setup that is a TypeError, thrown before the
`stats.put` and before `Workspace.setup` returns a session. -/
def setupWorkspace001 (store : String → Option WkspMeta) (wkspName : String) :
    SetupResult × SetupEffects :=
  match store wkspName with
  | none => (.typeErr, ⟨[wkspName], []⟩)
  | some m => (.session wkspName, ⟨[], [(wkspName, { m with ignore := true })]⟩)

/-- A 64-character all-zero PSK (passes the 32-byte check). -/
def psk64 : String := String.mk (List.replicate 64 '0')

/-- A 62-character all-zero PSK (31 bytes, fails the check). -/
def psk62 : String := String.mk (List.replicate 62 '0')

/-- Environment where every workspace has metadata and setup succeeds. -/
def envOk : Env := ⟨fun _ => true, fun _ => .ok⟩

/-- Environment where setup fails with a fixed join error. -/
def envFail : Env := ⟨fun _ => true, fun _ => .setupFail "join failed"⟩

/-- First concrete start request. -/
def reqW1 : AgentRequest := ⟨"w1", psk64, "general"⟩

/-- Second concrete start request, different workspace. -/
def reqW2 : AgentRequest := ⟨"w2", psk64, "general"⟩

/-- A request carrying a 31-byte PSK. -/
def reqBadPsk : AgentRequest := ⟨"w1", psk62, "general"⟩

/-- Projects containing an `/agenda.md` file. -/
def agendaProjs : List Project := [⟨"p", [⟨"/agenda.md", "X".toList⟩]⟩]

/-- Projects with files but no `/agenda.md` anywhere. -/
def noAgendaProjs : List Project := [⟨"p1", [⟨"/notes.md", "hello".toList⟩]⟩, ⟨"p2", []⟩]

/-- A small well-formed mail template with its two delimiters. -/
def tmplSmall : List Char := "X<hr>Y<hr>Z".toList

lemma leadsWith_iff (p s : List Char) : leadsWith p s = true ↔ ∃ t, s = p ++ t := by
  induction p generalizing s with
  | nil => simp [leadsWith]
  | cons a as ih =>
    cases s with
    | nil => simp [leadsWith]
    | cons b bs =>
      simp only [leadsWith, Bool.and_eq_true, beq_iff_eq, ih, List.cons_append]
      constructor
      · rintro ⟨rfl, t, rfl⟩
        exact ⟨t, rfl⟩
      · rintro ⟨t, h⟩
        cases h
        exact ⟨rfl, t, rfl⟩

lemma leadsWith_drop_self (p s : List Char) (h : leadsWith p s = true) :
    s = p ++ s.drop p.length := by
  obtain ⟨t, rfl⟩ := (leadsWith_iff p s).mp h
  rw [List.drop_left]

lemma leads_drop_bound (sep t : List Char) (i : Nat) (hsep : sep ≠ [])
    (h : leadsWith sep (t.drop i) = true) : i + sep.length ≤ t.length := by
  obtain ⟨r, hr⟩ := (leadsWith_iff sep (t.drop i)).mp h
  have hlen : (t.drop i).length = sep.length + r.length := by rw [hr, List.length_append]
  rw [List.length_drop] at hlen
  have hpos : 0 < sep.length := List.length_pos.mpr hsep
  omega

lemma findOcc_some_leads (sep : List Char) :
    ∀ (s : List Char) (i : Nat), findOcc sep s = some i → leadsWith sep (s.drop i) = true := by
  intro s
  induction s with
  | nil =>
    intro i h
    simp only [findOcc] at h
    split at h
    · rename_i hsep
      cases h
      subst hsep
      rfl
    · exact absurd h (by simp)
  | cons c rest ih =>
    intro i h
    simp only [findOcc] at h
    split at h
    · rename_i hl
      cases h
      simpa using hl
    · rcases hmap : findOcc sep rest with _ | j
      · rw [hmap] at h; cases h
      · rw [hmap] at h
        cases h
        simpa using ih j hmap

lemma findOcc_min (sep : List Char) :
    ∀ (s : List Char) (i : Nat), findOcc sep s = some i →
      ∀ k, k < i → leadsWith sep (s.drop k) = false := by
  intro s
  induction s with
  | nil =>
    intro i h k hk
    simp only [findOcc] at h
    split at h
    · cases h; omega
    · exact absurd h (by simp)
  | cons c rest ih =>
    intro i h k hk
    simp only [findOcc] at h
    split at h
    · cases h; omega
    · rename_i hl
      rcases hmap : findOcc sep rest with _ | j
      · rw [hmap] at h; cases h
      · rw [hmap] at h
        cases h
        cases k with
        | zero => exact Bool.eq_false_iff.mpr fun hc => hl hc
        | succ k2 =>
          have hk2 : k2 + 1 < j + 1 := hk
          simpa using ih j hmap k2 (by omega)

lemma findOcc_none_leads (sep : List Char) :
    ∀ (s : List Char), findOcc sep s = none →
      ∀ k, leadsWith sep (s.drop k) = false := by
  intro s
  induction s with
  | nil =>
    intro h k
    simp only [findOcc] at h
    split at h
    · cases h
    · rename_i hsep
      cases sep with
      | nil => exact absurd rfl hsep
      | cons a as => simp [leadsWith, List.drop_nil]
  | cons c rest ih =>
    intro h k
    simp only [findOcc] at h
    split at h
    · cases h
    · rename_i hl
      rcases hmap : findOcc sep rest with _ | j
      · cases k with
        | zero => exact Bool.eq_false_iff.mpr fun hc => hl hc
        | succ k2 => simpa using ih hmap k2
      · rw [hmap] at h; cases h

lemma findOcc_bound (sep s : List Char) (i : Nat) (hsep : sep ≠ [])
    (h : findOcc sep s = some i) : i + sep.length ≤ s.length :=
  leads_drop_bound sep s i hsep (findOcc_some_leads sep s i h)

lemma findOcc_decomp (sep s : List Char) (i : Nat)
    (h : findOcc sep s = some i) : s = s.take i ++ sep ++ s.drop (i + sep.length) := by
  have hl := findOcc_some_leads sep s i h
  have hd := leadsWith_drop_self sep (s.drop i) hl
  have hdd : (s.drop i).drop sep.length = s.drop (i + sep.length) := by
    rw [List.drop_drop]
  calc s = s.take i ++ s.drop i := (List.take_append_drop i s).symm
    _ = s.take i ++ (sep ++ (s.drop i).drop sep.length) := by rw [← hd]
    _ = s.take i ++ sep ++ s.drop (i + sep.length) := by rw [hdd, List.append_assoc]

lemma findOcc_of_min (sep t : List Char) (i : Nat)
    (h : leadsWith sep (t.drop i) = true)
    (hmin : ∀ k, k < i → leadsWith sep (t.drop k) = false) :
    findOcc sep t = some i := by
  rcases hf : findOcc sep t with _ | j
  · have := findOcc_none_leads sep t hf i
    rw [h] at this
    cases this
  · have hj := findOcc_some_leads sep t j hf
    have h1 : ¬ j < i := by
      intro hc
      have := hmin j hc
      rw [hj] at this
      cases this
    have h2 : ¬ i < j := by
      intro hc
      have := findOcc_min sep t j hf i hc
      rw [h] at this
      cases this
    have : j = i := by omega
    rw [this]

lemma findOcc_drop_none (sep t : List Char) (k : Nat)
    (h : findOcc sep t = none) : findOcc sep (t.drop k) = none := by
  rcases hf : findOcc sep (t.drop k) with _ | j
  · rfl
  · exfalso
    have hj := findOcc_some_leads sep (t.drop k) j hf
    rw [List.drop_drop] at hj
    have := findOcc_none_leads sep t h (k + j)
    rw [hj] at this
    cases this

lemma intercalate_single (sep a : List Char) : List.intercalate sep [a] = a := by
  simp [List.intercalate]

lemma intercalate_cons2 (sep a : List Char) (l : List (List Char)) (h : l ≠ []) :
    List.intercalate sep (a :: l) = a ++ sep ++ List.intercalate sep l := by
  cases l with
  | nil => exact absurd rfl h
  | cons b t => simp [List.intercalate, List.intersperse]

lemma splitF_ne_nil (sep : List Char) (fuel : Nat) (s : List Char) :
    splitF sep fuel s ≠ [] := by
  cases fuel with
  | zero => simp [splitF]
  | succ n =>
    simp only [splitF]
    rcases findOcc sep s with _ | i <;> simp

lemma take_succ_ne_nil {α : Type} (l : List α) (h : l ≠ []) (n : Nat) :
    l.take (n + 1) ≠ [] := by
  cases l with
  | nil => exact absurd rfl h
  | cons a t => simp

lemma take_min_len {α : Type} (l : List α) (k : Nat) :
    l.take (min k l.length) = l.take k := by
  rcases le_total k l.length with h | h
  · rw [min_eq_left h]
  · rw [min_eq_right h, List.take_length]
    exact (List.take_of_length_le h).symm

lemma get_map_add (c : Nat) :
    ∀ (l : List Nat) (k : Nat) (hk : k < (l.map (fun n => n + c)).length)
      (hk2 : k < l.length),
      (l.map (fun n => n + c)).get ⟨k, hk⟩ = l.get ⟨k, hk2⟩ + c := by
  intro l
  induction l with
  | nil => intro k hk hk2; simp at hk
  | cons a t ih =>
    intro k hk hk2
    cases k with
    | zero => rfl
    | succ k2 => exact ih k2 (by simpa using hk) (by simpa using hk2)

lemma splitF_join (sep : List Char) (hsep : sep ≠ []) :
    ∀ (fuel : Nat) (s : List Char), s.length < fuel →
      List.intercalate sep (splitF sep fuel s) = s := by
  intro fuel
  induction fuel with
  | zero => intro s hs; omega
  | succ n ih =>
    intro s hs
    rcases hf : findOcc sep s with _ | i
    · simp [splitF, hf, intercalate_single]
    · have hb := findOcc_bound sep s i hsep hf
      have hpos : 0 < sep.length := List.length_pos.mpr hsep
      have hrem : (s.drop (i + sep.length)).length < n := by
        rw [List.length_drop]; omega
      simp only [splitF, hf]
      rw [intercalate_cons2 sep _ _ (splitF_ne_nil sep n _), ih _ hrem]
      exact (findOcc_decomp sep s i hf).symm

lemma occsF_length (sep : List Char) (hsep : sep ≠ []) :
    ∀ (fuel : Nat) (s : List Char), s.length < fuel →
      (occsF sep fuel s).length + 1 = (splitF sep fuel s).length := by
  intro fuel
  induction fuel with
  | zero => intro s hs; omega
  | succ n ih =>
    intro s hs
    rcases hf : findOcc sep s with _ | i
    · simp [occsF, splitF, hf]
    · have hb := findOcc_bound sep s i hsep hf
      have hpos : 0 < sep.length := List.length_pos.mpr hsep
      have hrem : (s.drop (i + sep.length)).length < n := by
        rw [List.length_drop]; omega
      simp only [occsF, splitF, hf, List.length_cons, List.length_map]
      rw [ih _ hrem]

lemma occsF_get (sep : List Char) (hsep : sep ≠ []) :
    ∀ (fuel : Nat) (s : List Char), s.length < fuel →
      ∀ (k : Nat) (hk : k < (occsF sep fuel s).length),
        (occsF sep fuel s).get ⟨k, hk⟩ =
          (List.intercalate sep ((splitF sep fuel s).take (k + 1))).length := by
  intro fuel
  induction fuel with
  | zero => intro s hs; omega
  | succ n ih =>
    intro s hs k hk
    rcases hf : findOcc sep s with _ | i
    · have hlen : (occsF sep (n + 1) s).length = 0 := by simp [occsF, hf]
      rw [hlen] at hk
      exact absurd hk (by omega)
    · have hb := findOcc_bound sep s i hsep hf
      have hpos : 0 < sep.length := List.length_pos.mpr hsep
      have hrem : (s.drop (i + sep.length)).length < n := by
        rw [List.length_drop]; omega
      have hlist : occsF sep (n + 1) s =
          i :: ((occsF sep n (s.drop (i + sep.length))).map
            (fun m => m + (i + sep.length))) := by
        simp [occsF, hf]
      cases k with
      | zero =>
        rw [List.get_of_eq hlist ⟨0, hk⟩]
        have hsplit : (splitF sep (n + 1) s).take (0 + 1) = [s.take i] := by
          simp [splitF, hf]
        rw [hsplit, intercalate_single, List.length_take]
        show i = min i s.length
        omega
      | succ k2 =>
        have hk2 : k2 < (occsF sep n (s.drop (i + sep.length))).length := by
          have hx := hk
          rw [hlist] at hx
          simpa using Nat.lt_of_succ_lt_succ hx
        have hstep :
            (occsF sep (n + 1) s).get ⟨k2 + 1, hk⟩ =
              (occsF sep n (s.drop (i + sep.length))).get ⟨k2, hk2⟩ + (i + sep.length) := by
          rw [List.get_of_eq hlist ⟨k2 + 1, hk⟩]
          exact get_map_add (i + sep.length) _ k2 (by simpa using hk2) hk2
        rw [hstep, ih _ hrem k2 hk2]
        have hsplit : (splitF sep (n + 1) s).take (k2 + 1 + 1) =
            s.take i :: (splitF sep n (s.drop (i + sep.length))).take (k2 + 1) := by
          simp [splitF, hf]
        rw [hsplit,
          intercalate_cons2 sep _ _
            (take_succ_ne_nil _ (splitF_ne_nil sep n _) k2),
          List.length_append, List.length_append, List.length_take]
        omega

lemma splitLimitF_eq_take (sep : List Char) :
    ∀ (fuel limit : Nat) (s : List Char),
      splitLimitF sep fuel limit s = (splitF sep fuel s).take limit := by
  intro fuel
  induction fuel with
  | zero =>
    intro limit s
    cases limit with
    | zero => rfl
    | succ l => simp [splitLimitF, splitF]
  | succ n ih =>
    intro limit s
    cases limit with
    | zero => rfl
    | succ l =>
      rcases hf : findOcc sep s with _ | i
      · simp [splitLimitF, splitF, hf]
      · simp only [splitLimitF, splitF, hf]
        rw [List.take_succ_cons, ih]

lemma jsSubstring_zero (s : List Char) (b : Int) (hb : 0 ≤ b) :
    jsSubstring s 0 b = s.take b.toNat := by
  simp only [jsSubstring]
  have h1 : max (0 : Int) 0 = 0 := by norm_num
  have h2 : min (0 : Int) ((s.length : Nat) : Int) = 0 :=
    min_eq_left (by positivity)
  have h3 : max b 0 = b := max_eq_left hb
  rw [h1, h2, h3]
  have h4 : (0 : Int) ≤ min b ((s.length : Nat) : Int) :=
    le_min hb (by positivity)
  rw [min_eq_left h4, max_eq_right h4]
  have h5 : (min b ((s.length : Nat) : Int)).toNat = min b.toNat s.length := by
    rcases le_total b ((s.length : Nat) : Int) with h | h
    · rw [min_eq_left h, min_eq_left (by omega)]
    · rw [min_eq_right h, min_eq_right (by omega)]
      omega
  rw [h5, Int.toNat_zero, List.drop_zero, take_min_len]

lemma jsSubstring_nat_len (s : List Char) (a : Nat) (ha : a ≤ s.length) :
    jsSubstring s ((a : Nat) : Int) ((s.length : Nat) : Int) = s.drop a := by
  simp only [jsSubstring]
  have h1 : max ((a : Nat) : Int) 0 = ((a : Nat) : Int) := max_eq_left (by positivity)
  have h2 : min ((a : Nat) : Int) ((s.length : Nat) : Int) = ((a : Nat) : Int) :=
    min_eq_left (by omega)
  have h3 : max ((s.length : Nat) : Int) 0 = ((s.length : Nat) : Int) :=
    max_eq_left (by positivity)
  have h4 : min ((s.length : Nat) : Int) ((s.length : Nat) : Int) = ((s.length : Nat) : Int) :=
    min_self _
  rw [h1, h2, h3, h4]
  have h5 : min ((a : Nat) : Int) ((s.length : Nat) : Int) = ((a : Nat) : Int) :=
    min_eq_left (by omega)
  have h6 : max ((a : Nat) : Int) ((s.length : Nat) : Int) = ((s.length : Nat) : Int) :=
    max_eq_right (by omega)
  rw [h5, h6, Int.toNat_natCast, Int.toNat_natCast, List.take_length]

lemma jsSubstring_negOne_len (s : List Char) :
    jsSubstring s (-1) ((s.length : Nat) : Int) = s := by
  simp only [jsSubstring]
  have h1 : max (-1 : Int) 0 = 0 := by norm_num
  have h2 : min (0 : Int) ((s.length : Nat) : Int) = 0 := min_eq_left (by positivity)
  have h3 : max ((s.length : Nat) : Int) 0 = ((s.length : Nat) : Int) :=
    max_eq_left (by positivity)
  have h4 : min ((s.length : Nat) : Int) ((s.length : Nat) : Int) = ((s.length : Nat) : Int) :=
    min_self _
  rw [h1, h2, h3, h4]
  have h5 : min (0 : Int) ((s.length : Nat) : Int) = 0 := min_eq_left (by positivity)
  have h6 : max (0 : Int) ((s.length : Nat) : Int) = ((s.length : Nat) : Int) :=
    max_eq_right (by positivity)
  rw [h5, h6, Int.toNat_zero, Int.toNat_natCast, List.take_length, List.drop_zero]

lemma take_eq_iff_leadsWith (p m : List Char) :
    (m.take p.length = p) ↔ leadsWith p m = true := by
  rw [leadsWith_iff]
  constructor
  · intro h
    refine ⟨m.drop p.length, ?_⟩
    conv_lhs => rw [← List.take_append_drop p.length m]
    rw [h]
  · rintro ⟨t, rfl⟩
    exact List.take_left p t

lemma startAgentModel_activeAgent (env : Env) (r : AgentRequest) (s : ServerState) :
    (startAgentModel env r s).1.activeAgent = s.activeAgent := by
  cases hm : env.hasMeta r.wkspName <;> cases ho : env.setup r <;>
    simp [startAgentModel, hm, ho]

lemma startAgentModel_stopLog (env : Env) (r : AgentRequest) (s : ServerState) :
    (startAgentModel env r s).1.stopLog = s.stopLog := by
  cases hm : env.hasMeta r.wkspName <;> cases ho : env.setup r <;>
    simp [startAgentModel, hm, ho]

lemma startAgentModel_result (env : Env) (r : AgentRequest) (s : ServerState) :
    (startAgentModel env r s).2 =
      match env.setup r with
      | .setupFail m => .threw m
      | .listChannels => .exited 0
      | .chanNotFound => .exited 1
      | .ok => .running := by
  cases hm : env.hasMeta r.wkspName <;> cases ho : env.setup r <;>
    simp [startAgentModel, hm, ho]

lemma stopBranch_activeAgent (s : ServerState) : (stopBranch s).activeAgent = none := by
  cases h : s.activeAgent <;> simp [stopBranch, h]

lemma stopBranch_of_none (s : ServerState) (h : s.activeAgent = none) :
    stopBranch s = s := by
  simp [stopBranch, h]

lemma occurrences_nil_findOcc (sep s : List Char) (h : (occurrences sep s).length = 0) :
    findOcc sep s = none := by
  rcases hf : findOcc sep s with _ | i
  · rfl
  · exfalso
    have hx : (occurrences sep s).length =
        ((occsF sep s.length (s.drop (i + sep.length))).map
          (fun n => n + (i + sep.length))).length + 1 := by
      simp [occurrences, occsF, hf]
    omega

lemma occurrences_single (sep s : List Char) (hsep : sep ≠ []) (i : Nat)
    (h : occurrences sep s = [i]) :
    findOcc sep s = some i ∧ findOcc sep (s.drop (i + sep.length)) = none := by
  rcases hf : findOcc sep s with _ | j
  · exfalso
    have : occurrences sep s = [] := by simp [occurrences, occsF, hf]
    rw [this] at h
    cases h
  · have hj : occurrences sep s =
        j :: ((occsF sep s.length (s.drop (j + sep.length))).map
          (fun n => n + (j + sep.length))) := by
      simp [occurrences, occsF, hf]
    rw [hj] at h
    injection h with hji hrest
    subst hji
    have hmapnil : occsF sep s.length (s.drop (j + sep.length)) = [] :=
      List.map_eq_nil_iff.mp hrest
    refine ⟨rfl, ?_⟩
    rcases hf2 : findOcc sep (s.drop (j + sep.length)) with _ | k
    · rfl
    · exfalso
      have hpos : 0 < s.length := by
        cases s with
        | nil =>
          rw [show findOcc sep ([] : List Char) = none from by
            simp [findOcc, hsep]] at hf
          cases hf
        | cons a t => simp
      obtain ⟨m, hm⟩ : ∃ m, s.length = m + 1 := ⟨s.length - 1, by omega⟩
      rw [hm] at hmapnil
      rw [show occsF sep (m + 1) (s.drop (j + sep.length)) =
          k :: ((occsF sep m ((s.drop (j + sep.length)).drop (k + sep.length))).map
            (fun n => n + (k + sep.length))) from by simp [occsF, hf2]] at hmapnil
      cases hmapnil

/-- Claim C3: for every document text, the digest extraction
(`mdText.split("##", 3).join("##").length` and `substring`) returns the
entire document when the text contains two or fewer `##` markers, and
otherwise the document's prefix ending just before the start offset of the
third occurrence of `##` — occurrences counted by the same left-to-right
non-overlapping scan that JS `split` and `indexOf` perform. -/
theorem c3_digest_extraction (mdText : List Char) :
    ((occurrences sepHH mdText).length ≤ 2 → cutText mdText = mdText) ∧
    (∀ h : 2 < (occurrences sepHH mdText).length,
      cutText mdText = mdText.take ((occurrences sepHH mdText).get ⟨2, h⟩)) := by
  have hsep : sepHH ≠ [] := by decide
  have hfuel : mdText.length < mdText.length + 1 := Nat.lt_succ_self _
  constructor
  · intro hle
    have hlen := occsF_length sepHH hsep (mdText.length + 1) mdText hfuel
    unfold cutText thirdHeaderPos splitLimitJS
    rw [splitLimitF_eq_take]
    have hparts : (splitF sepHH (mdText.length + 1) mdText).length ≤ 3 := by
      have hocc : (occurrences sepHH mdText).length =
          (occsF sepHH (mdText.length + 1) mdText).length := rfl
      omega
    rw [List.take_of_length_le hparts, splitF_join sepHH hsep _ _ hfuel, List.take_length]
  · intro h
    have hget := occsF_get sepHH hsep (mdText.length + 1) mdText hfuel 2 h
    unfold cutText thirdHeaderPos splitLimitJS occurrences
    rw [splitLimitF_eq_take, hget]

/-- Witness for C3: a document with three `##` markers is cut just before the
third; a document with exactly two is returned whole. -/
theorem c3_digest_extraction_witness :
    cutText "aa##bb##cc##dd".toList = "aa##bb##cc".toList ∧
    cutText "aa##bb##cc".toList = "aa##bb##cc".toList := by
  constructor
  · exact ((c3_digest_extraction "aa##bb##cc##dd".toList).2 (by decide)).trans (by decide)
  · exact (c3_digest_extraction "aa##bb##cc".toList).1 (by decide)

/-- Claim C4: for a mail template with at least two `<hr>` occurrences (here:
an occurrence at `i0` with none before it, and one at `i1 > i0` with none
strictly between — first and second occurrence), the splice produces the
template bytes up to and including the first `<hr>` unchanged, then the
fragment, then the bytes from the second `<hr>` on unchanged. -/
theorem c4_template_splice (template html : List Char) (i0 i1 : Nat)
    (h0 : leadsWith hrSep (template.drop i0) = true)
    (hmin0 : ∀ k, k < i0 → leadsWith hrSep (template.drop k) = false)
    (h1 : leadsWith hrSep (template.drop i1) = true)
    (h01 : i0 < i1)
    (hmin1 : ∀ k, k < i1 → i0 < k → leadsWith hrSep (template.drop k) = false) :
    spliceEmail template html = template.take (i0 + 4) ++ html ++ template.drop i1 := by
  have hsep : hrSep ≠ [] := by decide
  have hlen4 : hrSep.length = 4 := by decide
  have hb0 : i0 + 4 ≤ template.length := by
    have := leads_drop_bound hrSep template i0 hsep h0
    omega
  have hb1 : i1 + 4 ≤ template.length := by
    have := leads_drop_bound hrSep template i1 hsep h1
    omega
  have hge : i0 + 4 ≤ i1 := by
    by_contra hc
    push_neg at hc
    have hdec := leadsWith_drop_self hrSep (template.drop i0) h0
    have hcons : template.drop i0 =
        '<' :: 'h' :: 'r' :: '>' :: (template.drop i0).drop hrSep.length := hdec
    have hd : template.drop i1 = (template.drop i0).drop (i1 - i0) := by
      rw [List.drop_drop]
      congr 1
      omega
    rw [hcons] at hd
    have hcases : i1 - i0 = 1 ∨ i1 - i0 = 2 ∨ i1 - i0 = 3 := by omega
    rcases hcases with hcase | hcase | hcase
    · rw [hcase] at hd
      have hd2 : template.drop i1 =
          'h' :: 'r' :: '>' :: (template.drop i0).drop hrSep.length := hd
      rw [hd2] at h1
      obtain ⟨t2, ht2⟩ := (leadsWith_iff hrSep _).mp h1
      injection ht2 with hh _
      exact absurd hh (by decide)
    · rw [hcase] at hd
      have hd2 : template.drop i1 =
          'r' :: '>' :: (template.drop i0).drop hrSep.length := hd
      rw [hd2] at h1
      obtain ⟨t2, ht2⟩ := (leadsWith_iff hrSep _).mp h1
      injection ht2 with hh _
      exact absurd hh (by decide)
    · rw [hcase] at hd
      have hd2 : template.drop i1 =
          '>' :: (template.drop i0).drop hrSep.length := hd
      rw [hd2] at h1
      obtain ⟨t2, ht2⟩ := (leadsWith_iff hrSep _).mp h1
      injection ht2 with hh _
      exact absurd hh (by decide)
  have hfo0 : findOcc hrSep template = some i0 := findOcc_of_min hrSep template i0 h0 hmin0
  have hfo1 : findOcc hrSep (template.drop (i0 + 4)) = some (i1 - (i0 + 4)) := by
    apply findOcc_of_min
    · have hdd : (template.drop (i0 + 4)).drop (i1 - (i0 + 4)) = template.drop i1 := by
        rw [List.drop_drop]
        congr 1
        omega
      rw [hdd]
      exact h1
    · intro k hk
      have hdd : (template.drop (i0 + 4)).drop k = template.drop (i0 + 4 + k) := by
        rw [List.drop_drop]
      rw [hdd]
      exact hmin1 (i0 + 4 + k) (by omega) (by omega)
  have hidx0 : jsIndexOfFrom hrSep template 0 = ((i0 : Nat) : Int) := by
    simp [jsIndexOfFrom, hfo0]
  have hr1 : jsIndexOfFrom hrSep template 0 + 4 = (((i0 + 4 : Nat) : Nat) : Int) := by
    rw [hidx0]
    push_cast
    ring
  have hr1toNat : (jsIndexOfFrom hrSep template 0 + 4).toNat = i0 + 4 := by
    rw [hr1, Int.toNat_natCast]
  have hidx1 : jsIndexOfFrom hrSep template (i0 + 4) = ((i1 : Nat) : Int) := by
    simp only [jsIndexOfFrom, hfo1]
    congr 1
    omega
  simp only [spliceEmail]
  rw [hr1toNat, hidx1, hr1,
    jsSubstring_zero template _ (by positivity), Int.toNat_natCast,
    jsSubstring_nat_len template i1 (by omega)]

/-- Witness for C4 at a concrete template with two `<hr>` delimiters. -/
theorem c4_template_splice_witness :
    spliceEmail "A<hr>B<hr>C".toList "XY".toList = "A<hr>XY<hr>C".toList := by
  have h := c4_template_splice "A<hr>B<hr>C".toList "XY".toList 1 6
    (by decide)
    (by decide)
    (by decide)
    (by decide)
    (by decide)
  exact h.trans (by decide)

/-- Counterexample to C8: on a template with no `<hr>` at all (fewer than the
two required delimiters) the digest run does not fail — the source has no
template check, `indexOf` yields `-1`, `substring` clamps, and a spliced body
is produced and handed to the mail transport. -/
theorem c8_counterexample :
    (occurrences hrSep "ABCDEF".toList).length < 2 ∧
    runDigestCore (fun l => l) "ABCDEF".toList agendaProjs =
      .ran "ABCXABCDEF".toList := by
  constructor
  · decide
  · decide

/-- Claim C8 as amended: a template missing either `<hr>` delimiter does not
raise a template error; the splice still produces a body that is sent — with
no delimiter the body is the first three template characters, the fragment,
then the whole template (`indexOf` gives `-1`, so `hr1 = 3` and
`substring(-1)` clamps to the whole string); with exactly one delimiter it is
the template through the end of that delimiter, the fragment, then the whole
template. -/
theorem c8_amended (template html : List Char) :
    ((occurrences hrSep template).length = 0 →
      spliceEmail template html = template.take 3 ++ html ++ template) ∧
    (∀ i, occurrences hrSep template = [i] →
      spliceEmail template html = template.take (i + 4) ++ html ++ template) := by
  have hsep : hrSep ≠ [] := by decide
  have hlen4 : hrSep.length = 4 := by decide
  constructor
  · intro h0
    have hfo := occurrences_nil_findOcc hrSep template h0
    have hfo3 : findOcc hrSep (template.drop 3) = none :=
      findOcc_drop_none hrSep template 3 hfo
    have hidx : jsIndexOfFrom hrSep template 0 = -1 := by
      simp [jsIndexOfFrom, hfo]
    simp only [spliceEmail, hidx]
    have hidx2 : jsIndexOfFrom hrSep template 3 = -1 := by
      simp [jsIndexOfFrom, hfo3]
    have htoNat : ((-1 : Int) + 4).toNat = 3 := by decide
    have h34 : ((-1 : Int) + 4) = ((3 : Nat) : Int) := by decide
    rw [htoNat, hidx2, jsSubstring_negOne_len, h34,
      jsSubstring_zero template _ (by positivity), Int.toNat_natCast]
  · intro i h1
    obtain ⟨hfo, hfo2⟩ := occurrences_single hrSep template hsep i h1
    rw [hlen4] at hfo2
    have hidx : jsIndexOfFrom hrSep template 0 = ((i : Nat) : Int) := by
      simp [jsIndexOfFrom, hfo]
    simp only [spliceEmail, hidx]
    have hr1 : ((i : Nat) : Int) + 4 = (((i + 4 : Nat) : Nat) : Int) := by
      push_cast
      ring
    have htoNat : (((i : Nat) : Int) + 4).toNat = i + 4 := by
      rw [hr1, Int.toNat_natCast]
    rw [htoNat]
    have hidx2 : jsIndexOfFrom hrSep template (i + 4) = -1 := by
      simp [jsIndexOfFrom, hfo2]
    rw [hidx2, jsSubstring_negOne_len, hr1,
      jsSubstring_zero template _ (by positivity), Int.toNat_natCast]

/-- Witness for C8's amended claim at concrete malformed templates: one with
no `<hr>` and one with a single `<hr>`. -/
theorem c8_amended_witness :
    spliceEmail "ABCDEF".toList "Q".toList = "ABCQABCDEF".toList ∧
    spliceEmail "A<hr>B".toList "Q".toList = "A<hr>QA<hr>B".toList := by
  constructor
  · exact ((c8_amended "ABCDEF".toList "Q".toList).1 (by decide)).trans (by decide)
  · exact ((c8_amended "A<hr>B".toList "Q".toList).2 1 (by decide)).trans (by decide)

/-- Counterexample to C2: in the part_001 digest dispatch the source has no
sentinel guard, so a chat message whose text starts with `"AGENT: "` still
triggers a full digest run (agenda lookup, cut, splice, mail hand-off) instead
of being ignored. -/
theorem c2_counterexample :
    onChatDigest001 (fun l => l) tmplSmall agendaProjs "general" "general"
        ⟨"alice", 0, "AGENT: hello".toList⟩ =
      some (.ran ("X<hr>".toList ++ "X".toList ++ "<hr>Z".toList)) := by
  decide

/-- Claim C2 as amended: in the AI-reply mode of headless.ts the
`substring(0, 7)` guard drops exactly the messages whose text starts with
`"AGENT: "` and forwards every other message of the subscribed channel exactly
once (one generation call, one publish); messages of other channels are
ignored. The part_000 digest variant applies the same guard, but the part_001
digest variant applies no guard: every message delivered on the subscribed
channel triggers the digest run, sentinel-prefixed or not. -/
theorem c2_amended (gen : List Char → List Char) (ch : String) (msg : ChatMessage) :
    (leadsWith AGENT_ID msg.message = true → onChatAi gen ch ch msg = []) ∧
    (leadsWith AGENT_ID msg.message = false →
      onChatAi gen ch ch msg =
        [.generate msg.message, .publish ch (AGENT_ID ++ gen msg.message)]) ∧
    (∀ ch2, ch2 ≠ ch → onChatAi gen ch ch2 msg = []) ∧
    (leadsWith AGENT_ID msg.message = true →
      ∀ (render : List Char → List Char) (template : List Char) (projs : List Project),
        onChatDigest000 render template projs ch ch msg = none) ∧
    (∀ (render : List Char → List Char) (template : List Char) (projs : List Project),
      onChatDigest001 render template projs ch ch msg =
        some (runDigestCore render template projs)) := by
  have hlen : AGENT_ID.length = 7 := by decide
  have hguard : (msg.message.take 7 = AGENT_ID) ↔ leadsWith AGENT_ID msg.message = true := by
    rw [← hlen]
    exact take_eq_iff_leadsWith AGENT_ID msg.message
  refine ⟨?_, ?_, ?_, ?_, ?_⟩
  · intro h
    simp [onChatAi, hguard.mpr h]
  · intro h
    have hne : ¬ msg.message.take 7 = AGENT_ID := fun hc => by
      rw [hguard.mp hc] at h
      cases h
    simp [onChatAi, hne]
  · intro ch2 h
    simp [onChatAi, h]
  · intro h render template projs
    simp [onChatDigest000, hguard.mpr h]
  · intro render template projs
    simp [onChatDigest001]

/-- Witness for C2's amended claim: a sentinel message is dropped by the AI
handler, a plain message is forwarded exactly once, and a sentinel message
still triggers the part_001 digest dispatch. -/
theorem c2_amended_witness :
    onChatAi (fun l => l) "general" "general" ⟨"a", 0, "AGENT: hi".toList⟩ = [] ∧
    onChatAi (fun l => l) "general" "general" ⟨"a", 0, "hi".toList⟩ =
      [.generate "hi".toList, .publish "general" (AGENT_ID ++ "hi".toList)] ∧
    onChatDigest001 (fun l => l) tmplSmall agendaProjs "general" "general"
        ⟨"a", 0, "AGENT: again".toList⟩ =
      some (runDigestCore (fun l => l) tmplSmall agendaProjs) := by
  refine ⟨?_, ?_, ?_⟩
  · exact (c2_amended (fun l => l) "general" ⟨"a", 0, "AGENT: hi".toList⟩).1 (by decide)
  · exact (c2_amended (fun l => l) "general" ⟨"a", 0, "hi".toList⟩).2.1 (by decide)
  · exact (c2_amended (fun l => l) "general"
      ⟨"a", 0, "AGENT: again".toList⟩).2.2.2.2 (fun l => l) tmplSmall agendaProjs

/-- Claim C7, evaluated at the failing input: when no project in the document
tree has a file at `/agenda.md`, the digest handler of part_001 (and the same
loop in part_000) leaves `fileContents` undefined and the subsequent
`fileContents.getText('text')` is a TypeError — the run crashes instead of
completing as a no-op; no email is handed to the transport. -/
theorem c7_missing_agenda_crash :
    onChatDigest001 (fun l => l) tmplSmall noAgendaProjs "general" "general"
        ⟨"bob", 5, "digest please".toList⟩ = some .typeErr ∧
    findAgenda noAgendaProjs = none := by
  constructor
  · decide
  · decide

/-- Claim C1, evaluated at the failing input: two successive valid `POST
/agent` requests (workspaces `w1` then `w2`, both with a valid PSK and a
successful setup). The source nulls the slot but never detaches the first
agent's chat listener (the cleanup is an unimplemented `TODO`) and never
cancels anything, so after the second start two chat subscriptions are live
simultaneously and neither is cancelled — the second installation does not
follow any cancellation of the first. -/
theorem c1_two_live_subscriptions :
    ((handleAgentFire envOk reqW2 (handleAgentFire envOk reqW1 initState).1).1.subs =
      [⟨"w1", "general", false⟩, ⟨"w2", "general", false⟩]) ∧
    ((handleAgentFire envOk reqW2
        (handleAgentFire envOk reqW1 initState).1).1.subs.filter
          (fun sub => !sub.cancelled)).length = 2 := by
  constructor
  · decide
  · decide

/-- Claim C5: a PSK whose hex decoding is not exactly 32 bytes is rejected
with the validation error before `startAgent` runs, in both `POST /agent`
handler variants (the state — subscriptions, joins, slot — is returned
untouched, so no join or other network action is issued) and in the part_000
CLI flow, whose check precedes even service loading; and the all-zero
64-hex-character PSK passes the length validation. -/
theorem c5_psk_validation :
    (∀ (env : Env) (r : AgentRequest) (s : ServerState),
      (hexDecode r.psk.toList).length ≠ 32 →
        handleAgentAwaited env r s = (s, .uncaughtThrow pskMsg) ∧
        handleAgentFire env r s = (s, .uncaughtThrow pskMsg)) ∧
    (∀ (hasMeta : Bool) (w p : String),
      (hexDecode p.toList).length ≠ 32 → mainFlow000 hasMeta w p = .fatalPskError) ∧
    (hexDecode (List.replicate 64 '0')).length = 32 := by
  refine ⟨?_, ?_, ?_⟩
  · intro env r s h
    constructor
    · unfold handleAgentAwaited
      rw [if_pos h]
    · unfold handleAgentFire
      rw [if_pos h]
  · intro hasMeta w p h
    unfold mainFlow000
    rw [if_pos h]
  · decide

/-- Witness for C5: the 62-hex-character all-zero PSK (31 bytes) is rejected
by the `POST /agent` handler with the state untouched and by the CLI flow. -/
theorem c5_psk_validation_witness :
    handleAgentFire envOk reqBadPsk initState = (initState, .uncaughtThrow pskMsg) ∧
    mainFlow000 false "w1" psk62 = .fatalPskError := by
  exact ⟨(c5_psk_validation.1 envOk reqBadPsk initState (by decide)).2,
    c5_psk_validation.2.1 false "w1" psk62 (by decide)⟩

/-- Counterexample to C6: in the headless.ts handler a PSK-validation failure
is thrown before the `try` block, so the handler produces no `500
{ok:false, error}` JSON response (the throw escapes uncaught); and a fully
successful start never produces the `200 {ok:true}` response, because the
handler awaits a `startAgent` that never resolves. -/
theorem c6_counterexample :
    handleAgentAwaited envOk reqBadPsk initState = (initState, .uncaughtThrow pskMsg) ∧
    (handleAgentAwaited envOk reqW1 initState).2 = .hang := by
  constructor
  · decide
  · decide

/-- Claim C6 as amended: a PSK-validation failure is thrown before the
`try`/`catch` in every variant and yields no JSON response; in the awaited
variant (headless.ts) a failure inside workspace/channel setup is caught as
`500 {ok:false, error}` while a successful start hangs forever (the 200 line
is unreachable); in the fire-and-forget variants (part_000/part_001) the
handler answers `200 {ok:true, message}` immediately after validation,
whatever later becomes of `startAgent`. -/
theorem c6_amended (env : Env) (r : AgentRequest) (s : ServerState) :
    ((hexDecode r.psk.toList).length ≠ 32 →
      handleAgentAwaited env r s = (s, .uncaughtThrow pskMsg) ∧
      handleAgentFire env r s = (s, .uncaughtThrow pskMsg)) ∧
    ((hexDecode r.psk.toList).length = 32 →
      (∀ m, env.setup r = .setupFail m → (handleAgentAwaited env r s).2 = .err500 m) ∧
      (env.setup r = .ok → (handleAgentAwaited env r s).2 = .hang) ∧
      (handleAgentFire env r s).2 =
        .ok200 ("Agent joined workspace " ++ r.wkspName ++ " on #" ++ r.channel)) := by
  constructor
  · intro h
    constructor
    · unfold handleAgentAwaited
      rw [if_pos h]
    · unfold handleAgentFire
      rw [if_pos h]
  · intro h
    refine ⟨?_, ?_, ?_⟩
    · intro m hm
      have hres : (startAgentModel env r (stopBranch s)).2 = .threw m := by
        rw [startAgentModel_result, hm]
      unfold handleAgentAwaited
      rw [if_neg (fun hc => hc h), hres]
    · intro hm
      have hres : (startAgentModel env r (stopBranch s)).2 = .running := by
        rw [startAgentModel_result, hm]
      unfold handleAgentAwaited
      rw [if_neg (fun hc => hc h), hres]
    · unfold handleAgentFire
      rw [if_neg (fun hc => hc h)]

/-- Witness for C6's amended claim: a setup failure yields the 500 JSON error,
a success hangs, a fire-and-forget request gets the immediate 200, and a bad
PSK is thrown uncaught. -/
theorem c6_amended_witness :
    (handleAgentAwaited envFail reqW1 initState).2 = .err500 "join failed" ∧
    (handleAgentAwaited envOk reqW1 initState).2 = .hang ∧
    (handleAgentFire envOk reqW1 initState).2 =
      .ok200 ("Agent joined workspace " ++ "w1" ++ " on #" ++ "general") ∧
    handleAgentFire envOk reqBadPsk initState = (initState, .uncaughtThrow pskMsg) := by
  refine ⟨?_, ?_, ?_, ?_⟩
  · exact ((c6_amended envFail reqW1 initState).2 (by decide)).1 "join failed" rfl
  · exact ((c6_amended envOk reqW1 initState).2 (by decide)).2.1 rfl
  · exact ((c6_amended envOk reqW1 initState).2 (by decide)).2.2
  · exact ((c6_amended envOk reqBadPsk initState).1 (by decide)).2

/-- Claim C9: no operation of the server ever installs a non-null handle in
the `globalThis._activeAgent` slot — the `POST /agent` handler only reads the
slot and resets it to null. Hence after any request with a valid PSK the slot
is null in both handler variants, and from a null slot the stop-previous-agent
branch is never taken (its log is unchanged) and the slot stays null. -/
theorem c9_slot_never_installed (env : Env) (r : AgentRequest) (s : ServerState) :
    ((hexDecode r.psk.toList).length = 32 →
      (handleAgentAwaited env r s).1.activeAgent = none ∧
      (handleAgentFire env r s).1.activeAgent = none) ∧
    (s.activeAgent = none →
      (handleAgentAwaited env r s).1.activeAgent = none ∧
      (handleAgentFire env r s).1.activeAgent = none ∧
      (handleAgentAwaited env r s).1.stopLog = s.stopLog ∧
      (handleAgentFire env r s).1.stopLog = s.stopLog) := by
  have hAa : (startAgentModel env r (stopBranch s)).1.activeAgent = none := by
    rw [startAgentModel_activeAgent, stopBranch_activeAgent]
  constructor
  · intro h
    constructor
    · unfold handleAgentAwaited
      rw [if_neg (fun hc => hc h)]
      rcases hp : (startAgentModel env r (stopBranch s)).2 with m | c | _ <;>
        exact hAa
    · unfold handleAgentFire
      rw [if_neg (fun hc => hc h)]
      exact hAa
  · intro hnone
    by_cases h : (hexDecode r.psk.toList).length = 32
    · have hlog : (startAgentModel env r (stopBranch s)).1.stopLog = s.stopLog := by
        rw [startAgentModel_stopLog, stopBranch_of_none s hnone]
      refine ⟨?_, ?_, ?_, ?_⟩
      · unfold handleAgentAwaited
        rw [if_neg (fun hc => hc h)]
        rcases hp : (startAgentModel env r (stopBranch s)).2 with m | c | _ <;>
          exact hAa
      · unfold handleAgentFire
        rw [if_neg (fun hc => hc h)]
        exact hAa
      · unfold handleAgentAwaited
        rw [if_neg (fun hc => hc h)]
        rcases hp : (startAgentModel env r (stopBranch s)).2 with m | c | _ <;>
          exact hlog
      · unfold handleAgentFire
        rw [if_neg (fun hc => hc h)]
        exact hlog
    · have hne : (hexDecode r.psk.toList).length ≠ 32 := h
      refine ⟨?_, ?_, ?_, ?_⟩ <;>
        first
          | (unfold handleAgentAwaited; rw [if_pos hne]; exact hnone)
          | (unfold handleAgentFire; rw [if_pos hne]; exact hnone)
          | (unfold handleAgentAwaited; rw [if_pos hne])
          | (unfold handleAgentFire; rw [if_pos hne])

/-- Witness for C9 at a concrete request from the initial state. -/
theorem c9_slot_never_installed_witness :
    (handleAgentFire envOk reqW1 initState).1.activeAgent = none ∧
    (handleAgentFire envOk reqW1 initState).1.stopLog = ([] : List String) := by
  have h := (c9_slot_never_installed envOk reqW1 initState).2 rfl
  exact ⟨h.2.1, h.2.2.2⟩

/-- Claim C10: in the digest variants' `setupWorkspace`, a workspace name with
no locally stored metadata record makes the flow perform the join and then
execute `wkspMeta.ignore = true` on the null metadata — a TypeError — so the
first-ever setup of a not-yet-joined workspace always throws after the join
and before the metadata put or the return of a session handle. -/
theorem c10_fresh_workspace_type_error (store : String → Option WkspMeta)
    (w : String) (h : store w = none) :
    setupWorkspace001 store w = (.typeErr, ⟨[w], []⟩) := by
  simp [setupWorkspace001, h]

/-- Witness for C10 at a concrete empty metadata store. -/
theorem c10_fresh_workspace_type_error_witness :
    setupWorkspace001 (fun _ => none) "alpha" = (.typeErr, ⟨["alpha"], []⟩) :=
  c10_fresh_workspace_type_error (fun _ => none) "alpha" rfl

end CallAgent
